import Mathlib

/-!
A verification development for the kaleidoscope repository (source files
mpm.py and reflect.py).  The Python code is shallowly embedded: taichi
float vectors and matrices become pairs of real numbers and a small 2x2
matrix structure, and machine floats are idealised as real numbers.
Theorems check the repository specification against this embedding.
-/

namespace Kaleidoscope

noncomputable section

/-- 2D vector of reals, idealising taichi 2-vectors of floats. -/
abbrev Vec2 : Type := ℝ × ℝ

/-- Componentwise vector addition. -/
def addV (u v : Vec2) : Vec2 := (u.1 + v.1, u.2 + v.2)

/-- Componentwise vector subtraction. -/
def subV (u v : Vec2) : Vec2 := (u.1 - v.1, u.2 - v.2)

/-- Scalar times vector. -/
def scale (c : ℝ) (u : Vec2) : Vec2 := (c * u.1, c * u.2)

/-- taichi `u.dot(v)` for 2-vectors. -/
def dotV (u v : Vec2) : ℝ := u.1 * v.1 + u.2 * v.2

/-- taichi `u.cross(v)` for 2-vectors (scalar z-component). -/
def crossV (u v : Vec2) : ℝ := u.1 * v.2 - u.2 * v.1

/-- taichi `u.norm()` for 2-vectors. -/
def normV (u : Vec2) : ℝ := Real.sqrt (u.1 * u.1 + u.2 * u.2)

/-- `Reflect.reflection(obj, mirror_p0, mirror_p1)`, reflect.py lines 35-48:
the mirror image of `obj` across the line through `p0` and `p1`, via the
matrix [[a, b], [b, -a]] with a = (dx^2 - dy^2)/(dx^2 + dy^2) and
b = 2 dx dy / (dx^2 + dy^2). -/
def reflection (obj p0 p1 : Vec2) : Vec2 :=
  let dx := (subV p1 p0).1
  let dy := (subV p1 p0).2
  let a := (dx * dx - dy * dy) / (dx * dx + dy * dy)
  let b := (2 * dx * dy) / (dx * dx + dy * dy)
  addV p0 (a * (obj.1 - p0.1) + b * (obj.2 - p0.2),
           b * (obj.1 - p0.1) - a * (obj.2 - p0.2))

/-- `Reflect.intersection(a0, a1, b0, b1)`, reflect.py lines 50-67: the
intersection point of two segments, with `a1` as the sentinel answer when
the determinant vanishes or a solved parameter leaves [0, 1]. -/
def intersection (a0 a1 b0 b1 : Vec2) : Vec2 :=
  let det := crossV (subV a0 a1) (subV b0 b1)
  if det ≠ 0 then
    let ta := crossV (subV a0 b0) (subV b0 b1) / det
    let tb := crossV (subV a0 b0) (subV a0 a1) / det
    if 0 ≤ ta ∧ ta ≤ 1 ∧ 0 ≤ tb ∧ tb ≤ 1 then
      addV b0 (scale tb (subV b1 b0))
    else a1
  else a1

/-- C4: for every non-degenerate mirror line through p0 and p1 (direction of
nonzero squared length) and every point q, `Reflect.reflection` applied twice
returns q exactly, in real arithmetic. -/
theorem reflection_involution (q p0 p1 : Vec2)
    (h : (p1.1 - p0.1) * (p1.1 - p0.1) + (p1.2 - p0.2) * (p1.2 - p0.2) ≠ 0) :
    reflection (reflection q p0 p1) p0 p1 = q := by
  obtain ⟨qx, qy⟩ := q
  obtain ⟨px, py⟩ := p0
  obtain ⟨mx, my⟩ := p1
  simp only [reflection, addV, subV] at h ⊢
  rw [Prod.mk.injEq]
  constructor <;> field_simp <;> ring

/-- C4 witness: the involution at a concrete mirror line and point. -/
theorem reflection_involution_witness :
    (((1 : ℝ), (0 : ℝ)).1 - ((0 : ℝ), (0 : ℝ)).1) * (((1 : ℝ), (0 : ℝ)).1 - ((0 : ℝ), (0 : ℝ)).1)
      + (((1 : ℝ), (0 : ℝ)).2 - ((0 : ℝ), (0 : ℝ)).2) * (((1 : ℝ), (0 : ℝ)).2 - ((0 : ℝ), (0 : ℝ)).2) ≠ 0
    ∧ reflection (reflection (2, 3) (0, 0) (1, 0)) (0, 0) (1, 0) = (2, 3) :=
  ⟨by norm_num, reflection_involution (2, 3) (0, 0) (1, 0) (by norm_num)⟩

/-- C5: `Reflect.intersection` returns the sentinel `a1` when the direction
cross-product determinant is zero, or when a solved parameter t_a or t_b lies
outside [0, 1]; otherwise it returns b0 + t_b (b1 - b0), which coincides with
the closed-form crossing point a0 + t_a (a1 - a0) of the two lines. -/
theorem intersection_spec (a0 a1 b0 b1 : Vec2) :
    (crossV (subV a0 a1) (subV b0 b1) = 0 → intersection a0 a1 b0 b1 = a1) ∧
    (∀ hdet : crossV (subV a0 a1) (subV b0 b1) ≠ 0,
      (¬(0 ≤ crossV (subV a0 b0) (subV b0 b1) / crossV (subV a0 a1) (subV b0 b1) ∧
          crossV (subV a0 b0) (subV b0 b1) / crossV (subV a0 a1) (subV b0 b1) ≤ 1 ∧
          0 ≤ crossV (subV a0 b0) (subV a0 a1) / crossV (subV a0 a1) (subV b0 b1) ∧
          crossV (subV a0 b0) (subV a0 a1) / crossV (subV a0 a1) (subV b0 b1) ≤ 1) →
        intersection a0 a1 b0 b1 = a1) ∧
      ((0 ≤ crossV (subV a0 b0) (subV b0 b1) / crossV (subV a0 a1) (subV b0 b1) ∧
          crossV (subV a0 b0) (subV b0 b1) / crossV (subV a0 a1) (subV b0 b1) ≤ 1 ∧
          0 ≤ crossV (subV a0 b0) (subV a0 a1) / crossV (subV a0 a1) (subV b0 b1) ∧
          crossV (subV a0 b0) (subV a0 a1) / crossV (subV a0 a1) (subV b0 b1) ≤ 1) →
        intersection a0 a1 b0 b1 =
          addV b0 (scale (crossV (subV a0 b0) (subV a0 a1) / crossV (subV a0 a1) (subV b0 b1))
            (subV b1 b0)) ∧
        addV a0 (scale (crossV (subV a0 b0) (subV b0 b1) / crossV (subV a0 a1) (subV b0 b1))
            (subV a1 a0)) =
          addV b0 (scale (crossV (subV a0 b0) (subV a0 a1) / crossV (subV a0 a1) (subV b0 b1))
            (subV b1 b0)))) := by
  constructor
  · intro h0
    simp [intersection, h0]
  · intro hdet
    constructor
    · intro hout
      simp only [intersection]
      rw [if_pos hdet, if_neg hout]
    · intro hin
      refine ⟨?_, ?_⟩
      · simp only [intersection]
        rw [if_pos hdet, if_pos hin]
      · obtain ⟨ax, ay⟩ := a0
        obtain ⟨bx, by'⟩ := a1
        obtain ⟨cx, cy⟩ := b0
        obtain ⟨ex, ey⟩ := b1
        simp only [crossV, subV, addV, scale] at hdet ⊢
        rw [Prod.mk.injEq]
        constructor <;> field_simp <;> ring

/-- C5 witness: two diagonal segments crossing at (1,1), and a parallel pair
returning the sentinel (second endpoint of the first segment). -/
theorem intersection_spec_witness :
    intersection (0, 0) (2, 2) (0, 2) (2, 0) = (1, 1) ∧
    intersection (0, 0) (1, 0) (0, 1) (1, 1) = (1, 0) := by
  constructor
  · have h := ((intersection_spec (0, 0) (2, 2) (0, 2) (2, 0)).2
      (by norm_num [crossV, subV])).2 (by norm_num [crossV, subV])
    rw [h.1]
    norm_num [crossV, subV, addV, scale]
  · have h := (intersection_spec (0, 0) (1, 0) (0, 1) (1, 1)).1
      (by norm_num [crossV, subV])
    rw [h]

/-! ### mpm.py: constants from `Mpm.__init__` (default quality = 1) -/

/-- mpm.py material code `MATERIAL_LIQUID`. -/
def MATERIAL_LIQUID : ℤ := 0

/-- mpm.py material code `MATERIAL_JELLY`. -/
def MATERIAL_JELLY : ℤ := 1

/-- mpm.py material code `MATERIAL_SNOW`. -/
def MATERIAL_SNOW : ℤ := 2

/-- mpm.py `particle_count` = 20000 * quality^2. -/
def particle_count : ℕ := 20000

/-- mpm.py `grid_res` = 128 * quality. -/
def grid_res : ℤ := 128

/-- mpm.py `dx` = 1 / grid_res. -/
def dx : ℝ := 1 / 128

/-- mpm.py `inv_dx` = float(grid_res). -/
def inv_dx : ℝ := 128

/-- mpm.py `dt` = 1e-4 / quality. -/
def dt : ℝ := 1e-4

/-- mpm.py `p_vol` = (dx * 0.5)^2. -/
def p_vol : ℝ := (dx * 0.5) ^ 2

/-- mpm.py `p_rho` = 1. -/
def p_rho : ℝ := 1

/-- mpm.py `p_mass` = p_vol * p_rho. -/
def p_mass : ℝ := p_vol * p_rho

/-- mpm.py `E`, the Young modulus. -/
def E : ℝ := 1.5e4

/-- mpm.py `nu`, the Poisson ratio. -/
def nu : ℝ := 0.4

/-- mpm.py `mu_0` = E / (2 (1 + nu)). -/
def mu_0 : ℝ := E / (2 * (1 + nu))

/-- mpm.py `lambda_0` = E * nu / ((1 + nu) / (1 - 2 nu)), as written in the code. -/
def lambda_0 : ℝ := E * nu / ((1 + nu) / (1 - 2 * nu))

/-- mpm.py `g`, the gravitational acceleration vector. -/
def gravity : Vec2 := (0, -9.8)

/-- mpm.py `mu_boundary`, the rim friction coefficient. -/
def mu_boundary : ℝ := 0.8

/-! ### mpm.py: the snow plasticity clamp (substep, line 100) -/

/-- The clamp applied to a snow singular value in `Mpm.substep`, mpm.py line
100, exactly as written: `min(max(sig[d, d], 1 - 2.5e2), 1 + 4.5e-3)`. -/
def snowClamp (s : ℝ) : ℝ := min (max s (1 - 2.5e2)) (1 + 4.5e-3)

/-- C1 (code bug): mpm.py line 100 writes `1 - 2.5e2` (= -249) where the spec
requires the plasticity lower bound `1 - 2.5e-2` (= 0.975).  A snow singular
value of 0.5 is left at 0.5 by the code, strictly below the claimed lower
bound, while the clamp of the claim would return 0.975. -/
theorem snow_clamp_code_divergence :
    snowClamp 0.5 = 0.5 ∧ snowClamp 0.5 < 1 - 2.5e-2 ∧
    min (max (0.5 : ℝ) (1 - 2.5e-2)) (1 + 4.5e-3) = 1 - 2.5e-2 := by
  norm_num [snowClamp]

/-! ### mpm.py: grid-edge velocity clamp (substep, lines 126-134) -/

/-- The box boundary clamp of `Mpm.substep`, mpm.py lines 126-134: four
sequential conditional zeroings of outward velocity components near the grid
edges. -/
def limitBox (i j : ℤ) (v : Vec2) : Vec2 :=
  let v0 := if i < 3 ∧ v.1 < 0 then 0 else v.1
  let v0 := if i > grid_res - 3 ∧ v0 > 0 then 0 else v0
  let v1 := if j < 3 ∧ v.2 < 0 then 0 else v.2
  let v1 := if j > grid_res - 3 ∧ v1 > 0 then 0 else v1
  (v0, v1)

/-- C6 counterexample: grid node (125, 64) lies within the last 3 cells of
the high x edge (125 ≥ grid_res - 3) and its velocity (1, 0) points outward,
yet the clamp leaves the x component at 1, because the code condition
`i > grid_res - 3` excludes index grid_res - 3 itself. -/
theorem box_clamp_last3_cex :
    (125 : ℤ) ≥ grid_res - 3 ∧ (limitBox 125 64 (1, 0)).1 = 1 ∧
    (limitBox 125 64 (1, 0)).1 ≠ 0 := by
  refine ⟨by norm_num [grid_res], ?_, ?_⟩ <;>
    norm_num [limitBox, grid_res]

/-- C6 (amended): in the grid update of `Mpm.substep`, a node with index < 3
on the low side of an axis has its negative velocity component zeroed, and a
node with index > grid_res - 3 (the last two cells) on the high side has its
positive component zeroed. -/
theorem box_clamp_amended (i j : ℤ) (v : Vec2) :
    (i < 3 → v.1 < 0 → (limitBox i j v).1 = 0) ∧
    (i > grid_res - 3 → v.1 > 0 → (limitBox i j v).1 = 0) ∧
    (j < 3 → v.2 < 0 → (limitBox i j v).2 = 0) ∧
    (j > grid_res - 3 → v.2 > 0 → (limitBox i j v).2 = 0) := by
  have hres : grid_res - 3 = (125 : ℤ) := by norm_num [grid_res]
  refine ⟨fun h1 h2 => ?_, fun h1 h2 => ?_, fun h1 h2 => ?_, fun h1 h2 => ?_⟩
  · simp [limitBox, h1, h2]
  · have h3 : ¬(i < 3 ∧ v.1 < 0) := by
      rintro ⟨hi, -⟩
      rw [hres] at h1
      omega
    simp [limitBox, h3, h1, h2]
  · simp [limitBox, h1, h2]
  · have h3 : ¬(j < 3 ∧ v.2 < 0) := by
      rintro ⟨hj, -⟩
      rw [hres] at h1
      omega
    simp [limitBox, h3, h1, h2]

/-- C6 witness: the amended clamp at a node near the low x edge and the high
y edge, with velocity pointing out through both. -/
theorem box_clamp_amended_witness :
    ((2 : ℤ) < 3 ∧ ((-1 : ℝ), (1 : ℝ)).1 < 0 ∧ (limitBox 2 126 (-1, 1)).1 = 0) ∧
    ((126 : ℤ) > grid_res - 3 ∧ ((-1 : ℝ), (1 : ℝ)).2 > 0 ∧ (limitBox 2 126 (-1, 1)).2 = 0) :=
  ⟨⟨by norm_num, by norm_num,
      (box_clamp_amended 2 126 (-1, 1)).1 (by norm_num) (by norm_num)⟩,
   ⟨by norm_num [grid_res], by norm_num,
      (box_clamp_amended 2 126 (-1, 1)).2.2.2 (by norm_num [grid_res]) (by norm_num)⟩⟩

/-! ### mpm.py: rotating rim response (substep, lines 135-144) -/

/-- Componentwise division of a vector by a scalar, as in taichi `u / c`. -/
def divV (u : Vec2) (c : ℝ) : Vec2 := (u.1 / c, u.2 / c)

/-- A vector times a scalar on the right, as in taichi `u * c`. -/
def mulVS (u : Vec2) (c : ℝ) : Vec2 := (u.1 * c, u.2 * c)

/-- The matrix [[0, -1], [1, 0]] of mpm.py line 144 applied to a vector:
rotation by +90 degrees. -/
def rot90 (u : Vec2) : Vec2 := (0 * u.1 + -1 * u.2, 1 * u.1 + 0 * u.2)

/-- Position of grid node (i, j) relative to the domain center (0.5, 0.5),
mpm.py line 136. -/
def dposAt (i j : ℤ) : Vec2 := ((i : ℝ) * dx - 0.5, (j : ℝ) * dx - 0.5)

/-- The rotating circular rim response of `Mpm.substep`, mpm.py lines
135-144: outside radius 0.5 with outward velocity, move the tangential
component toward omega by at most mu_boundary times the radial component and
rebuild the velocity as purely tangential. -/
def limitCircle (omega : ℝ) (i j : ℤ) (v : Vec2) : Vec2 :=
  let dpos := dposAt i j
  if normV dpos ≥ 0.5 ∧ dotV dpos v > 0 then
    let vr := dotV dpos v / normV dpos
    let vt := crossV dpos v / normV dpos
    let vt2 := if omega > vt then min omega (vt + mu_boundary * vr)
               else max omega (vt - mu_boundary * vr)
    mulVS (divV (rot90 dpos) (normV dpos)) vt2
  else v

/-- C2: for a grid node whose position relative to the domain center has norm
at least 0.5 and whose velocity has positive radial component, the rim
response returns a purely tangential velocity (the +90 degree rotation of the
radial direction scaled by a signed magnitude t), where t lies between the
previous tangential component and omega and differs from the previous
tangential component by at most mu_boundary (= 0.8) times the radial
magnitude. -/
theorem rim_friction_tangential (omega : ℝ) (i j : ℤ) (v : Vec2)
    (hn : normV (dposAt i j) ≥ 0.5) (hr : dotV (dposAt i j) v > 0) :
    ∃ t : ℝ,
      limitCircle omega i j v = mulVS (divV (rot90 (dposAt i j)) (normV (dposAt i j))) t ∧
      dotV (dposAt i j) (limitCircle omega i j v) = 0 ∧
      min (crossV (dposAt i j) v / normV (dposAt i j)) omega ≤ t ∧
      t ≤ max (crossV (dposAt i j) v / normV (dposAt i j)) omega ∧
      |t - crossV (dposAt i j) v / normV (dposAt i j)| ≤
        mu_boundary * (dotV (dposAt i j) v / normV (dposAt i j)) := by
  have hn0 : (0 : ℝ) < normV (dposAt i j) := lt_of_lt_of_le (by norm_num) hn
  have hvr0 : 0 < dotV (dposAt i j) v / normV (dposAt i j) := div_pos hr hn0
  have hmu0 : (0 : ℝ) ≤ mu_boundary := by norm_num [mu_boundary]
  have hmuvr : 0 ≤ mu_boundary * (dotV (dposAt i j) v / normV (dposAt i j)) :=
    mul_nonneg hmu0 hvr0.le
  have hunf : limitCircle omega i j v =
      mulVS (divV (rot90 (dposAt i j)) (normV (dposAt i j)))
        (if omega > crossV (dposAt i j) v / normV (dposAt i j) then
          min omega (crossV (dposAt i j) v / normV (dposAt i j) +
            mu_boundary * (dotV (dposAt i j) v / normV (dposAt i j)))
         else
          max omega (crossV (dposAt i j) v / normV (dposAt i j) -
            mu_boundary * (dotV (dposAt i j) v / normV (dposAt i j)))) := by
    simp only [limitCircle]
    rw [if_pos ⟨hn, hr⟩]
  refine ⟨_, hunf, ?_, ?_, ?_, ?_⟩
  · rw [hunf]
    obtain ⟨dx', dy'⟩ := dposAt i j
    simp only [dotV, mulVS, divV, rot90]
    ring
  · by_cases hc : omega > crossV (dposAt i j) v / normV (dposAt i j)
    · rw [if_pos hc]
      exact le_min (min_le_right _ _) (le_trans (min_le_left _ _) (by linarith))
    · rw [if_neg hc]
      exact le_trans (min_le_right _ _) (le_max_left _ _)
  · by_cases hc : omega > crossV (dposAt i j) v / normV (dposAt i j)
    · rw [if_pos hc]
      exact le_trans (min_le_left _ _) (le_max_right _ _)
    · rw [if_neg hc]
      exact max_le (le_max_right _ _) (le_trans (by linarith) (le_max_left _ _))
  · by_cases hc : omega > crossV (dposAt i j) v / normV (dposAt i j)
    · rw [if_pos hc]
      rw [abs_le]
      constructor
      · have h1 : crossV (dposAt i j) v / normV (dposAt i j) ≤
            min omega (crossV (dposAt i j) v / normV (dposAt i j) +
              mu_boundary * (dotV (dposAt i j) v / normV (dposAt i j))) :=
          le_min (le_of_lt hc) (by linarith)
        linarith
      · have h1 := min_le_right omega (crossV (dposAt i j) v / normV (dposAt i j) +
          mu_boundary * (dotV (dposAt i j) v / normV (dposAt i j)))
        linarith
    · rw [if_neg hc]
      rw [abs_le]
      constructor
      · have h1 := le_max_right omega (crossV (dposAt i j) v / normV (dposAt i j) -
          mu_boundary * (dotV (dposAt i j) v / normV (dposAt i j)))
        linarith
      · push_neg at hc
        have h1 := max_le hc
          (sub_le_self (crossV (dposAt i j) v / normV (dposAt i j)) hmuvr)
        linarith

/-- C2 witness: the rim response at grid node (192, 64), whose offset from
the center is (1, 0), with outward velocity (1, 0) and omega = 1. -/
theorem rim_friction_tangential_witness :
    normV (dposAt 192 64) ≥ 0.5 ∧ dotV (dposAt 192 64) (1, 0) > 0 ∧
    ∃ t : ℝ,
      limitCircle 1 192 64 (1, 0) =
        mulVS (divV (rot90 (dposAt 192 64)) (normV (dposAt 192 64))) t ∧
      dotV (dposAt 192 64) (limitCircle 1 192 64 (1, 0)) = 0 ∧
      min (crossV (dposAt 192 64) (1, 0) / normV (dposAt 192 64)) 1 ≤ t ∧
      t ≤ max (crossV (dposAt 192 64) (1, 0) / normV (dposAt 192 64)) 1 ∧
      |t - crossV (dposAt 192 64) (1, 0) / normV (dposAt 192 64)| ≤
        mu_boundary * (dotV (dposAt 192 64) (1, 0) / normV (dposAt 192 64)) := by
  have hdpos : dposAt 192 64 = (1, 0) := by
    norm_num [dposAt, dx]
  have hnorm : normV (dposAt 192 64) = 1 := by
    rw [hdpos]
    show Real.sqrt ((1 : ℝ) * 1 + 0 * 0) = 1
    rw [show ((1 : ℝ) * 1 + 0 * 0) = 1 by norm_num, Real.sqrt_one]
  have h1 : normV (dposAt 192 64) ≥ 0.5 := by rw [hnorm]; norm_num
  have h2 : dotV (dposAt 192 64) (1, 0) > 0 := by
    rw [hdpos]
    norm_num [dotV]
  exact ⟨h1, h2, rim_friction_tangential 1 192 64 (1, 0) h1 h2⟩

/-! ### mpm.py: 2x2 matrices and particle state -/

/-- A 2x2 real matrix, idealising taichi 2x2 float matrices. -/
structure Mat2 where
  m00 : ℝ
  m01 : ℝ
  m10 : ℝ
  m11 : ℝ

/-- Matrix sum. -/
def matAdd (A B : Mat2) : Mat2 :=
  ⟨A.m00 + B.m00, A.m01 + B.m01, A.m10 + B.m10, A.m11 + B.m11⟩

/-- Matrix difference. -/
def matSub (A B : Mat2) : Mat2 :=
  ⟨A.m00 - B.m00, A.m01 - B.m01, A.m10 - B.m10, A.m11 - B.m11⟩

/-- Scalar times matrix. -/
def smulMat (c : ℝ) (A : Mat2) : Mat2 :=
  ⟨c * A.m00, c * A.m01, c * A.m10, c * A.m11⟩

/-- Matrix product. -/
def matMul (A B : Mat2) : Mat2 :=
  ⟨A.m00 * B.m00 + A.m01 * B.m10, A.m00 * B.m01 + A.m01 * B.m11,
   A.m10 * B.m00 + A.m11 * B.m10, A.m10 * B.m01 + A.m11 * B.m11⟩

/-- Matrix transpose. -/
def matT (A : Mat2) : Mat2 := ⟨A.m00, A.m10, A.m01, A.m11⟩

/-- The 2x2 identity matrix. -/
def mat1 : Mat2 := ⟨1, 0, 0, 1⟩

/-- The 2x2 zero matrix. -/
def mat0 : Mat2 := ⟨0, 0, 0, 0⟩

/-- Matrix applied to a vector. -/
def matVec (A : Mat2) (u : Vec2) : Vec2 :=
  (A.m00 * u.1 + A.m01 * u.2, A.m10 * u.1 + A.m11 * u.2)

/-- taichi `u.outer_product(v)`. -/
def outerV (u v : Vec2) : Mat2 := ⟨u.1 * v.1, u.1 * v.2, u.2 * v.1, u.2 * v.2⟩

/-- Per-particle state of mpm.py: position x, velocity v, affine velocity C,
deformation gradient F, material type, color, palette id, plastic Jp. -/
structure Particle where
  x : Vec2
  v : Vec2
  C : Mat2
  F : Mat2
  material : ℤ
  color : ℝ × ℝ × ℝ
  color_id : ℝ
  Jp : ℝ

/-- The result of taichi `ti.svd` on a 2x2 matrix: the triple (U, sig, V).
The routine is a taichi built-in, external to this repository, so the
embedding takes it as an uninterpreted parameter function. -/
abbrev Svd2 : Type := Mat2 → Mat2 × Mat2 × Mat2

/-! ### mpm.py: P2G weights and grid scatter (substep, lines 83-119) -/

/-- The `base` integer cell of a particle position, mpm.py line 85. -/
def baseCell (x : Vec2) : ℤ × ℤ := (⌊x.1 * inv_dx - 0.5⌋, ⌊x.2 * inv_dx - 0.5⌋)

/-- The fractional offset `fx` of a particle in its base cell, mpm.py line 86. -/
def fracPos (x : Vec2) : Vec2 :=
  (x.1 * inv_dx - ((baseCell x).1 : ℝ), x.2 * inv_dx - ((baseCell x).2 : ℝ))

/-- The per-axis quadratic B-spline weights `w`, mpm.py line 87. -/
def wQuad (f : ℝ) : ℤ → ℝ
  | 0 => 0.5 * (1.5 - f) ^ 2
  | 1 => 0.75 - (f - 1) ^ 2
  | _ => 0.5 * (f - 0.5) ^ 2

/-- The 3x3 neighborhood offsets of `ti.ndrange(3, 3)`, in loop order. -/
def offsets : List (ℤ × ℤ) :=
  [(0, 0), (0, 1), (0, 2), (1, 0), (1, 1), (1, 2), (2, 0), (2, 1), (2, 2)]

/-- The combined 2D scatter weight `w[i][0] * w[j][1]`, mpm.py line 117. -/
def pWeight (x : Vec2) (oi oj : ℤ) : ℝ :=
  wQuad (fracPos x).1 oi * wQuad (fracPos x).2 oj

/-- A scalar grid field (grid_m). -/
abbrev GridS : Type := ℤ × ℤ → ℝ

/-- A vector grid field (grid_v). -/
abbrev GridV : Type := ℤ × ℤ → Vec2

/-- Additive update (`+=`) of one scalar grid cell. -/
def addTo (g : GridS) (c : ℤ × ℤ) (a : ℝ) : GridS :=
  fun idx => if idx = c then g idx + a else g idx

/-- Additive update (`+=`) of one vector grid cell. -/
def addToV (g : GridV) (c : ℤ × ℤ) (a : Vec2) : GridV :=
  fun idx => if idx = c then addV (g idx) a else g idx

/-- The mass part of one particle's 3x3 scatter, mpm.py lines 114-119. -/
def scatterMass (g : GridS) (x : Vec2) : GridS :=
  offsets.foldl (fun acc off =>
    addTo acc ((baseCell x).1 + off.1, (baseCell x).2 + off.2)
      (pWeight x off.1 off.2 * p_mass)) g

/-- The deformation gradient after the elastic update of mpm.py line 88. -/
def FUpd (p : Particle) : Mat2 := matMul (matAdd mat1 (smulMat dt p.C)) p.F

/-- The per-particle state change of the P2G pass, mpm.py lines 88-109:
elastic F update, snow plasticity through `snowClamp`, Jp accumulation, and
the material-dependent reconstruction of F. -/
def p2gParticleUpd (svd : Svd2) (p : Particle) : Particle :=
  let Fn := FUpd p
  let usv := svd Fn
  let U := usv.1
  let sig := usv.2.1
  let V := usv.2.2
  let ns0 := if p.material = MATERIAL_SNOW then snowClamp sig.m00 else sig.m00
  let Jp2 := p.Jp * (sig.m00 / ns0)
  let ns1 := if p.material = MATERIAL_SNOW then snowClamp sig.m11 else sig.m11
  let Jp3 := Jp2 * (sig.m11 / ns1)
  let sigN : Mat2 := ⟨ns0, sig.m01, sig.m10, ns1⟩
  let J := 1 * ns0 * ns1
  let Fr := if p.material = MATERIAL_LIQUID then smulMat (Real.sqrt J) mat1
            else if p.material = MATERIAL_SNOW then matMul (matMul U sigN) (matT V)
            else Fn
  { p with F := Fr, Jp := Jp3 }

/-- One particle's full P2G pass, mpm.py lines 84-119: the state change of
`p2gParticleUpd` together with the stress/affine computation and the scatter
of mass and momentum into the 3x3 grid neighborhood. -/
def p2gStep (svd : Svd2) (st : List Particle × GridS × GridV) (p : Particle) :
    List Particle × GridS × GridV :=
  let b := baseCell p.x
  let f := fracPos p.x
  let Fn := FUpd p
  let h := if p.material = MATERIAL_JELLY then 0.4
           else Real.exp (10 * (1 - p.Jp))
  let mu := if p.material = MATERIAL_LIQUID then 0 else mu_0 * h
  let la := lambda_0 * h
  let usv := svd Fn
  let U := usv.1
  let sig := usv.2.1
  let V := usv.2.2
  let ns0 := if p.material = MATERIAL_SNOW then snowClamp sig.m00 else sig.m00
  let Jp2 := p.Jp * (sig.m00 / ns0)
  let ns1 := if p.material = MATERIAL_SNOW then snowClamp sig.m11 else sig.m11
  let Jp3 := Jp2 * (sig.m11 / ns1)
  let sigN : Mat2 := ⟨ns0, sig.m01, sig.m10, ns1⟩
  let J := 1 * ns0 * ns1
  let Fr := if p.material = MATERIAL_LIQUID then smulMat (Real.sqrt J) mat1
            else if p.material = MATERIAL_SNOW then matMul (matMul U sigN) (matT V)
            else Fn
  let stress0 := matAdd
    (smulMat (2 * mu) (matMul (matSub Fr (matMul U (matT V))) (matT Fr)))
    (smulMat (la * J * (J - 1)) mat1)
  let stress := smulMat (-dt * p_vol * 4 * inv_dx * inv_dx) stress0
  let affine := matAdd stress (smulMat p_mass p.C)
  let gmv := offsets.foldl (fun acc off =>
      (addTo acc.1 (b.1 + off.1, b.2 + off.2) (pWeight p.x off.1 off.2 * p_mass),
       addToV acc.2 (b.1 + off.1, b.2 + off.2)
         (scale (pWeight p.x off.1 off.2)
           (addV (scale p_mass p.v)
             (matVec affine (((off.1 : ℝ) - f.1) * dx, ((off.2 : ℝ) - f.2) * dx))))))
    st.2
  (st.1 ++ [{ p with F := Fr, Jp := Jp3 }], gmv.1, gmv.2)

/-- The P2G pass over a particle list, mpm.py lines 83-119. -/
def p2g (svd : Svd2) (st : List Particle × GridS × GridV) (ps : List Particle) :
    List Particle × GridS × GridV :=
  ps.foldl (p2gStep svd) st

/-- The index set of the full grid, grid_res x grid_res nodes. -/
def gridIdx : Finset (ℤ × ℤ) :=
  Finset.Icc 0 (128 - 1) ×ˢ Finset.Icc 0 (128 - 1)

/-- Summing an `addTo` update over a set containing the touched cell adds
exactly the deposited amount. -/
theorem sum_addTo (S : Finset (ℤ × ℤ)) (g : GridS) (c : ℤ × ℤ) (a : ℝ)
    (hc : c ∈ S) :
    ∑ idx ∈ S, addTo g c a idx = (∑ idx ∈ S, g idx) + a := by
  have h : ∀ idx, addTo g c a idx = g idx + (if idx = c then a else 0) := by
    intro idx
    simp only [addTo]
    split <;> simp
  simp only [h]
  rw [Finset.sum_add_distrib, Finset.sum_ite_eq' S c (fun _ => a)]
  simp [hc]

/-- The per-axis B-spline weights sum to 1. -/
theorem wQuad_total (f : ℝ) : wQuad f 0 + wQuad f 1 + wQuad f 2 = 1 := by
  show 0.5 * (1.5 - f) ^ 2 + (0.75 - (f - 1) ^ 2) + 0.5 * (f - 0.5) ^ 2 = 1
  ring

/-- One particle's mass scatter adds exactly p_mass to the grid total when
its 3x3 neighborhood lies inside the index set. -/
theorem sum_scatterMass (S : Finset (ℤ × ℤ)) (g : GridS) (x : Vec2)
    (hin : ∀ off ∈ offsets,
      ((baseCell x).1 + off.1, (baseCell x).2 + off.2) ∈ S) :
    ∑ idx ∈ S, scatterMass g x idx = (∑ idx ∈ S, g idx) + p_mass := by
  have h00 := hin (0, 0) (by simp [offsets])
  have h01 := hin (0, 1) (by simp [offsets])
  have h02 := hin (0, 2) (by simp [offsets])
  have h10 := hin (1, 0) (by simp [offsets])
  have h11 := hin (1, 1) (by simp [offsets])
  have h12 := hin (1, 2) (by simp [offsets])
  have h20 := hin (2, 0) (by simp [offsets])
  have h21 := hin (2, 1) (by simp [offsets])
  have h22 := hin (2, 2) (by simp [offsets])
  simp only [scatterMass, offsets, List.foldl] at h00 h01 h02 h10 h11 h12 h20 h21 h22 ⊢
  rw [sum_addTo S _ _ _ h22, sum_addTo S _ _ _ h21, sum_addTo S _ _ _ h20,
    sum_addTo S _ _ _ h12, sum_addTo S _ _ _ h11, sum_addTo S _ _ _ h10,
    sum_addTo S _ _ _ h02, sum_addTo S _ _ _ h01, sum_addTo S _ _ _ h00]
  have ha := wQuad_total (fracPos x).1
  have hb := wQuad_total (fracPos x).2
  simp only [pWeight]
  linear_combination p_mass *
    ((wQuad (fracPos x).2 0 + wQuad (fracPos x).2 1 + wQuad (fracPos x).2 2) * ha + hb)

/-- The grid-mass component of one P2G particle step is the mass scatter. -/
theorem p2gStep_gm (svd : Svd2) (st : List Particle × GridS × GridV)
    (p : Particle) : (p2gStep svd st p).2.1 = scatterMass st.2.1 p.x := rfl

/-- Summing the grid mass after a P2G pass adds length * p_mass to the
initial total, when every scatter neighborhood lies inside the set. -/
theorem sum_p2g_gm (svd : Svd2) (S : Finset (ℤ × ℤ)) :
    ∀ (ps : List Particle) (st : List Particle × GridS × GridV),
      (∀ p ∈ ps, ∀ off ∈ offsets,
        ((baseCell p.x).1 + off.1, (baseCell p.x).2 + off.2) ∈ S) →
      ∑ idx ∈ S, (p2g svd st ps).2.1 idx =
        (∑ idx ∈ S, st.2.1 idx) + ps.length * p_mass := by
  intro ps
  induction ps with
  | nil =>
    intro st hin
    simp [p2g]
  | cons p ps ih =>
    intro st hin
    have h1 : p2g svd st (p :: ps) = p2g svd (p2gStep svd st p) ps := by
      simp [p2g]
    rw [h1, ih (p2gStep svd st p) (fun q hq => hin q (List.mem_cons_of_mem _ hq)),
      p2gStep_gm, sum_scatterMass S st.2.1 p.x (hin p (List.mem_cons_self _ _))]
    simp only [List.length_cons]
    push_cast
    ring

set_option maxRecDepth 8000 in
/-- C3: after the P2G phase of a sub-step (started from the reset grid), if
every particle's 3x3 scatter neighborhood lies within the grid bounds, the
total grid mass equals the particle count times p_mass, exactly in real
arithmetic (the per-axis quadratic B-spline weights sum to 1). -/
theorem p2g_mass_conservation (svd : Svd2) (ps : List Particle)
    (hin : ∀ p ∈ ps, ∀ off ∈ offsets,
      ((baseCell p.x).1 + off.1, (baseCell p.x).2 + off.2) ∈ gridIdx) :
    ∑ idx ∈ gridIdx,
        (p2g svd (([] : List Particle), (fun _ => 0), (fun _ => (0, 0))) ps).2.1 idx =
      ps.length * p_mass := by
  have h := sum_p2g_gm svd gridIdx ps
    (([] : List Particle), (fun _ => 0), (fun _ => (0, 0))) hin
  rw [h]
  simp

/-- A concrete SVD oracle for witnesses: constantly the identity triple. -/
def svdId : Svd2 := fun _ => (mat1, mat1, mat1)

/-- A concrete jelly particle at the domain center, used by witnesses. -/
def pJelly : Particle :=
  ⟨(1 / 2, 1 / 2), (0, 0), mat0, mat1, MATERIAL_JELLY, (0, 0, 0), 0, 1⟩

set_option maxRecDepth 8000 in
/-- C3 witness: one particle at (1/2, 1/2); its scatter neighborhood, the
cells (63..65)^2, lies inside the grid, and the grid mass totals p_mass. -/
theorem p2g_mass_conservation_witness :
    (∀ p ∈ [pJelly], ∀ off ∈ offsets,
      ((baseCell p.x).1 + off.1, (baseCell p.x).2 + off.2) ∈ gridIdx) ∧
    ∑ idx ∈ gridIdx,
        (p2g svdId (([] : List Particle), (fun _ => 0), (fun _ => (0, 0)))
          [pJelly]).2.1 idx =
      ([pJelly] : List Particle).length * p_mass := by
  have hfl : (⌊(1 / 2 : ℝ) * inv_dx - 0.5⌋ : ℤ) = 63 := by
    rw [Int.floor_eq_iff]
    norm_num [inv_dx]
  have hbase : baseCell pJelly.x = (63, 63) := by
    simp only [baseCell, pJelly]
    rw [Prod.mk.injEq]
    exact ⟨hfl, hfl⟩
  have hin : ∀ p ∈ [pJelly], ∀ off ∈ offsets,
      ((baseCell p.x).1 + off.1, (baseCell p.x).2 + off.2) ∈ gridIdx := by
    intro p hp off hoff
    simp only [List.mem_singleton] at hp
    subst hp
    rw [hbase]
    simp only [offsets, List.mem_cons, List.not_mem_nil, or_false] at hoff
    rcases hoff with h | h | h | h | h | h | h | h | h <;> subst h <;>
      simp only [gridIdx, Finset.mem_product, Finset.mem_Icc] <;> omega
  exact ⟨hin, p2g_mass_conservation svdId [pJelly] hin⟩

/-! ### mpm.py: grid update, G2P and the full substep -/

/-- The grid operations of mpm.py lines 121-144: on each in-range node with
positive mass, normalise momentum to velocity, apply gravity, then the box
clamp and the rotating rim response. -/
def gridUpdate (omega : ℝ) (gm : GridS) (gv : GridV) : GridV :=
  fun c =>
    if 0 ≤ c.1 ∧ c.1 < grid_res ∧ 0 ≤ c.2 ∧ c.2 < grid_res ∧ gm c > 0 then
      limitCircle omega c.1 c.2
        (limitBox c.1 c.2 (addV (divV (gv c) (gm c)) (scale dt gravity)))
    else gv c

/-- One particle's G2P pass, mpm.py lines 147-160: gather the velocity and
the APIC affine matrix from the 3x3 neighborhood, then advect the position. -/
def g2pParticle (gv : GridV) (p : Particle) : Particle :=
  let b := baseCell p.x
  let f := fracPos p.x
  let vC := offsets.foldl (fun acc off =>
      (addV acc.1 (scale (pWeight p.x off.1 off.2) (gv (b.1 + off.1, b.2 + off.2))),
       matAdd acc.2 (smulMat (4 * inv_dx * pWeight p.x off.1 off.2)
         (outerV (gv (b.1 + off.1, b.2 + off.2))
           ((off.1 : ℝ) - f.1, (off.2 : ℝ) - f.2)))))
    (((0, 0) : Vec2), mat0)
  { p with v := vC.1, C := vC.2, x := addV p.x (scale dt vC.1) }

/-- `Mpm.substep` (mpm.py lines 76-160): grid reset, P2G, grid update, G2P.
Returns the new particle list with the grid mass and velocity fields. -/
def substep (svd : Svd2) (omega : ℝ) (ps : List Particle) :
    List Particle × GridS × GridV :=
  let st := p2g svd (([] : List Particle), (fun _ => 0), (fun _ => (0, 0))) ps
  let gv2 := gridUpdate omega st.2.1 st.2.2
  (st.1.map (g2pParticle gv2), st.2.1, gv2)

/-- The particle-list component of one P2G step appends the updated
particle. -/
theorem p2gStep_parts (svd : Svd2) (st : List Particle × GridS × GridV)
    (p : Particle) : (p2gStep svd st p).1 = st.1 ++ [p2gParticleUpd svd p] := rfl

/-- The particle-list component of the P2G pass maps `p2gParticleUpd`. -/
theorem p2g_parts (svd : Svd2) :
    ∀ (ps : List Particle) (st : List Particle × GridS × GridV),
      (p2g svd st ps).1 = st.1 ++ ps.map (p2gParticleUpd svd) := by
  intro ps
  induction ps with
  | nil =>
    intro st
    simp [p2g]
  | cons p ps ih =>
    intro st
    have h1 : p2g svd st (p :: ps) = p2g svd (p2gStep svd st p) ps := by
      simp [p2g]
    rw [h1, ih, p2gStep_parts]
    simp

/-- C9: a sub-step never changes the number of particles, and never modifies
any particle's material type, color, or palette index (color_id); only the
other fields are written. -/
theorem substep_frame (svd : Svd2) (omega : ℝ) (ps : List Particle) :
    ((substep svd omega ps).1).length = ps.length ∧
    ((substep svd omega ps).1).map (fun p => p.material) =
      ps.map (fun p => p.material) ∧
    ((substep svd omega ps).1).map (fun p => p.color) =
      ps.map (fun p => p.color) ∧
    ((substep svd omega ps).1).map (fun p => p.color_id) =
      ps.map (fun p => p.color_id) := by
  simp only [substep]
  rw [p2g_parts]
  simp only [List.nil_append, List.map_map, List.length_map]
  refine ⟨trivial, ?_, ?_, ?_⟩ <;>
    exact List.map_congr_left (fun p hp => rfl)

/-- The Jp written by the P2G particle update: the ratio old/new singular
value is 1 for non-snow materials with nonzero singular values. -/
theorem p2gParticleUpd_Jp (svd : Svd2) (p : Particle)
    (hm : p.material ≠ MATERIAL_SNOW)
    (h0 : (svd (FUpd p)).2.1.m00 ≠ 0) (h1 : (svd (FUpd p)).2.1.m11 ≠ 0) :
    (p2gParticleUpd svd p).Jp = p.Jp := by
  simp only [p2gParticleUpd, if_neg hm]
  rw [div_self h0, div_self h1]
  ring

/-- C10: a sub-step leaves the plastic Jacobian Jp of every particle
unchanged when no particle is snow and the singular values returned for the
updated deformation gradients are nonzero (for liquid and jelly the clamped
value new_sig equals sig, so the accumulated ratio is 1); hence Jp = 1 is an
invariant of an all-jelly field. -/
theorem substep_Jp_invariant (svd : Svd2) (omega : ℝ) (ps : List Particle)
    (hmat : ∀ p ∈ ps, p.material ≠ MATERIAL_SNOW)
    (hsig : ∀ p ∈ ps,
      (svd (FUpd p)).2.1.m00 ≠ 0 ∧ (svd (FUpd p)).2.1.m11 ≠ 0) :
    ((substep svd omega ps).1).map (fun p => p.Jp) = ps.map (fun p => p.Jp) := by
  simp only [substep]
  rw [p2g_parts]
  simp only [List.nil_append, List.map_map]
  refine List.map_congr_left (fun p hp => ?_)
  show (p2gParticleUpd svd p).Jp = p.Jp
  exact p2gParticleUpd_Jp svd p (hmat p hp) (hsig p hp).1 (hsig p hp).2

/-- C10 witness: a one-particle jelly field with the identity SVD oracle. -/
theorem substep_Jp_invariant_witness :
    (∀ p ∈ [pJelly], p.material ≠ MATERIAL_SNOW) ∧
    (∀ p ∈ [pJelly],
      (svdId (FUpd p)).2.1.m00 ≠ 0 ∧ (svdId (FUpd p)).2.1.m11 ≠ 0) ∧
    ((substep svdId 0 [pJelly]).1).map (fun p => p.Jp) =
      [pJelly].map (fun p => p.Jp) := by
  have hmat : ∀ p ∈ [pJelly], p.material ≠ MATERIAL_SNOW := by
    intro p hp
    simp only [List.mem_singleton] at hp
    subst hp
    simp [pJelly, MATERIAL_JELLY, MATERIAL_SNOW]
  have hsig : ∀ p ∈ [pJelly],
      (svdId (FUpd p)).2.1.m00 ≠ 0 ∧ (svdId (FUpd p)).2.1.m11 ≠ 0 := by
    intro p hp
    simp [svdId, mat1]
  exact ⟨hmat, hsig, substep_Jp_invariant svdId 0 [pJelly] hmat hsig⟩

/-! ### reflect.py: mirror polygon construction and the tracing loop -/

/-- Vertex k of the mirror polygon built by `Reflect.__init__` (reflect.py
lines 26-31): `np.linspace(0, 2*pi, n+1)` places vertex k at angle
2 pi k / n on the circle of the given radius around the center.  The
constructor performs no validation of its arguments. -/
def mirrorPts (center : Vec2) (n : ℕ) (radius : ℝ) (k : ℕ) : Vec2 :=
  (center.1 + radius * Real.cos (2 * Real.pi * k / n),
   center.2 + radius * Real.sin (2 * Real.pi * k / n))

/-- The inner mirror scan of `Reflect.tracing` (reflect.py lines 79-85): a
fold over the mirror indices keeping the closest hit and its index, started
from (dst, 0). -/
def traceScan (pts : ℕ → Vec2) (n : ℕ) (src dst : Vec2) : Vec2 × ℕ :=
  (List.range n).foldl (fun acc k =>
    let hit := intersection src dst (pts k) (pts (k + 1))
    if dotV (subV hit src) (subV hit acc.1) < -1e-1 then (hit, k) else acc)
    (dst, 0)

/-- The bounded tracing loop of `Reflect.tracing` (reflect.py lines 78-90),
with the remaining iteration count as fuel (the code caps it at 100). -/
def traceLoop (pts : ℕ → Vec2) (n : ℕ) : ℕ → Vec2 → Vec2 → Vec2
  | 0, _, dst => dst
  | fuel + 1, src, dst =>
    let best := traceScan pts n src dst
    if normV (subV best.1 dst) < 1e-3 then dst
    else traceLoop pts n fuel best.1
      (reflection dst (pts best.2) (pts (best.2 + 1)))

/-- `Reflect.tracing(i, j)` (reflect.py lines 69-90): start from src at the
center and dst at the queried point, with at most 100 iterations. -/
def tracing (center : Vec2) (pts : ℕ → Vec2) (n : ℕ) (i j : ℝ) : Vec2 :=
  traceLoop pts n 100 center (i, j)

/-- A fold whose step ignores its input list element and returns the
accumulator is the identity. -/
theorem foldl_const {α β : Type} (f : α → β → α) (l : List β)
    (hf : ∀ a b, f a b = a) (a : α) : l.foldl f a = a := by
  induction l generalizing a with
  | nil => rfl
  | cons b l ih => rw [List.foldl_cons, hf, ih]

/-- A degenerate query segment: when both endpoints coincide the
intersection routine returns its sentinel, the common point. -/
theorem intersection_self (d b0 b1 : Vec2) : intersection d d b0 b1 = d := by
  simp [intersection, crossV, subV]

/-- The mirror scan from a degenerate segment keeps its start value. -/
theorem traceScan_self (pts : ℕ → Vec2) (n : ℕ) (d : Vec2) :
    traceScan pts n d d = (d, 0) := by
  refine foldl_const _ _ (fun acc k => ?_) _
  show (if dotV (subV (intersection d d (pts k) (pts (k + 1))) d)
      (subV (intersection d d (pts k) (pts (k + 1))) acc.1) < -1e-1
    then (intersection d d (pts k) (pts (k + 1)), k) else acc) = acc
  rw [intersection_self, if_neg]
  norm_num [dotV, subV]

/-- The tracing loop started with dst equal to src stops at its first
iteration and returns dst. -/
theorem traceLoop_self (pts : ℕ → Vec2) (n fuel : ℕ) (d : Vec2) :
    traceLoop pts n (fuel + 1) d d = d := by
  have hcond : normV (subV (traceScan pts n d d).1 d) < 1e-3 := by
    rw [traceScan_self]
    show normV (subV d d) < 1e-3
    have h0 : normV (subV d d) = 0 := by
      simp [subV, normV]
    rw [h0]
    norm_num
  rw [traceLoop]
  rw [if_pos hcond]

/-- C8: with the mirror polygon of center (256, 256), 5 mirrors and radius
76.8, tracing the eye point itself returns that point unchanged: the first
iteration finds no hit distinct from dst and terminates without any
reflection. -/
theorem tracing_center_fixed :
    tracing (256, 256) (mirrorPts (256, 256) 5 76.8) 5 256 256 = (256, 256) := by
  show traceLoop (mirrorPts (256, 256) 5 76.8) 5 (99 + 1) (256, 256) (256, 256) = (256, 256)
  exact traceLoop_self (mirrorPts (256, 256) 5 76.8) 5 99 (256, 256)

/-- C7 counterexample: constructing the mirror polygon with the invalid
radius 0, or the invalid mirror count 1, does not fail: it silently builds
a degenerate polygon (vertices collapse onto the center; the single mirror
segment has coinciding endpoints). -/
theorem mirror_init_no_validation_cex :
    mirrorPts (256, 256) 5 0 0 = (256, 256) ∧
    mirrorPts (256, 256) 5 0 1 = (256, 256) ∧
    mirrorPts (256, 256) 1 76.8 0 = mirrorPts (256, 256) 1 76.8 1 := by
  refine ⟨?_, ?_, ?_⟩
  · simp [mirrorPts]
  · simp [mirrorPts]
  · simp only [mirrorPts, Nat.cast_zero, Nat.cast_one]
    rw [show 2 * Real.pi * 1 / 1 = 2 * Real.pi by ring,
      show 2 * Real.pi * 0 / 1 = 0 by ring,
      Real.cos_two_pi, Real.cos_zero, Real.sin_two_pi, Real.sin_zero]

/-- C7 (amended): `Reflect.__init__` performs no validation and never
raises: with non-positive radius every vertex coincides with the center, and
with mirror count 1 the first mirror segment is degenerate, so invalid
configurations silently build degenerate polygons. -/
theorem mirror_init_degenerate (center : Vec2) (n : ℕ) (radius : ℝ) (k : ℕ) :
    mirrorPts center n 0 k = center ∧
    mirrorPts center 1 radius 0 = mirrorPts center 1 radius 1 := by
  constructor
  · simp [mirrorPts]
  · simp only [mirrorPts, Nat.cast_zero, Nat.cast_one]
    rw [show 2 * Real.pi * 1 / 1 = 2 * Real.pi by ring,
      show 2 * Real.pi * 0 / 1 = 0 by ring,
      Real.cos_two_pi, Real.cos_zero, Real.sin_two_pi, Real.sin_zero]

end

end Kaleidoscope
